import Mathlib

/-
Verification of the multi-target regression learning nodes of
src/skmultiflow/trees/_isouptr_nodes.py against its specification.

The four node classes are embedded shallowly:
  * numpy 1-D arrays of floats become `Vec := List ℚ`, 2-D arrays become
    `Mat := List Vec` (exact rational arithmetic in place of float64);
  * the lazily keyed statistics dict `self._stats` (keys 0, 1, 2) becomes a
    record of three `Option` fields, `none` meaning "key absent";
  * the seeded random generator becomes an explicit function from the
    requested shape to the drawn matrix, carried in the node state;
  * attribute observers are external collaborators and are modelled by the
    sequence of `update` calls they received;
  * Python exceptions surface as `Except PyError` where a claim needs them.

Where the zero-divisor behaviour of numpy float division matters (a weight
row whose absolute sum is zero), a small float model `NpF` with NaN and
signed infinities is used; everywhere else rows with nonzero absolute sum
compute identically in ℚ and in float arithmetic (up to rounding).
-/

namespace MTR

abbrev Vec := List ℚ

abbrev Mat := List Vec

/-- Elementwise sum of two vectors (numpy `+` on equal-length arrays). -/
def vadd (u v : Vec) : Vec := List.zipWith (fun a b => a + b) u v

/-- Elementwise difference of two vectors (numpy `-`). -/
def vsub (u v : Vec) : Vec := List.zipWith (fun a b => a - b) u v

/-- Elementwise product of two vectors (numpy `*`). -/
def vmul (u v : Vec) : Vec := List.zipWith (fun a b => a * b) u v

/-- Scalar times vector (numpy scalar broadcast). -/
def smul (c : ℚ) (v : Vec) : Vec := v.map (fun x => c * x)

/-- Vector divided elementwise by a scalar (numpy `/`), with ℚ's
`x / 0 = 0` convention; see `np_div_fin` for the float-faithful variant. -/
def vdiv (v : Vec) (c : ℚ) : Vec := v.map (fun x => x / c)

/-- Dot product of two vectors. -/
def dotProd (u v : Vec) : ℚ := (vmul u v).sum

/-- Matrix-vector product, `np.matmul(M, x)` for a 2-D times 1-D operand. -/
def matVec (M : Mat) (x : Vec) : Vec := M.map (fun r => dotProd r x)

/-- Outer product `np.matmul(u[:, None], v[None, :])`. -/
def outerProd (u v : Vec) : Mat := u.map (fun a => v.map (fun b => a * b))

/-- Scalar times matrix. -/
def smulMat (c : ℚ) (M : Mat) : Mat := M.map (smul c)

/-- Elementwise sum of two matrices. -/
def matAdd (A B : Mat) : Mat := List.zipWith vadd A B

/-- The quantity `sum_w = np.sum(np.abs(row))` of
`normalize_perceptron_weights` (lines 127 and 253). -/
def rowAbsSum (r : Vec) : ℚ := (r.map (fun x => |x|)).sum

/-- One row of `normalize_perceptron_weights`:
`self.perceptron_weight[i, :] /= sum_w` (lines 128 and 254), in exact
rational arithmetic (so a division by a zero `sum_w` yields zeros; the
float behaviour of that degenerate case is captured by `normalize_row_np`). -/
def normalize_row (r : Vec) : Vec := r.map (fun x => x / rowAbsSum r)

/-- `normalize_perceptron_weights` (lines 123-128; the method of the
inactive class at lines 249-254 is textually identical): every row is
divided by the sum of the absolute values of its entries. -/
def normalize_perceptron_weights (M : Mat) : Mat := M.map normalize_row

/-- A float value as numpy produces it from dividing finite operands:
finite, NaN, or a signed infinity. -/
inductive NpF where
  | fin (q : ℚ)
  | nan
  | pinf
  | ninf
deriving DecidableEq

/-- numpy float64 division of two finite values: `0.0/0.0` is NaN,
`x/0.0` is a signed infinity for nonzero `x` (with a RuntimeWarning, not
an exception), and otherwise the exact quotient. -/
def np_div_fin (a b : ℚ) : NpF :=
  if b = 0 then (if a = 0 then NpF.nan else if 0 < a then NpF.pinf else NpF.ninf)
  else NpF.fin (a / b)

/-- One row of `normalize_perceptron_weights` under numpy float division
semantics: the row is divided elementwise by `sum_w` unconditionally,
exactly as lines 127-128 / 253-254 do, with no guard for `sum_w == 0`. -/
def normalize_row_np (r : Vec) : List NpF :=
  r.map (fun x => np_div_fin x (rowAbsSum r))

/-- The statistics dict `self._stats` with its lazily created keys 0
(total observed weight), 1 (weighted target sum, a vector) and 2
(weighted squared-target sum, a vector); `none` models an absent key. -/
structure Stats where
  stat0 : Option ℚ
  stat1 : Option Vec
  stat2 : Option Vec

def emptyStats : Stats := { stat0 := none, stat1 := none, stat2 := none }

/-- The key-0 update of `learn_from_instance` (lines 64-67 / 203-206):
`self._stats[0] += weight`, falling back to `self._stats[0] = weight` on
`KeyError`. -/
def new_count (st : Stats) (weight : ℚ) : ℚ :=
  match st.stat0 with
  | some c => c + weight
  | none => weight

/-- The statistics update of one `learn_from_instance` call (lines 64-67
and 76-81 / 203-206 and 215-220). The keys 1 and 2 share one try/except
block: if key 1 exists but key 2 does not, the `+=` on key 1 runs, the
access to key 2 raises `KeyError`, and the except branch then overwrites
both keys with the fresh values — hence any case other than "both keys
present" ends with `weight * y` and `weight * y * y`. -/
def stats_update (st : Stats) (y : Vec) (weight : ℚ) : Stats :=
  { stat0 := some (new_count st weight)
  , stat1 := match st.stat1, st.stat2 with
      | some t1, some _ => some (vadd t1 (smul weight y))
      | _, _ => some (smul weight y)
  , stat2 := match st.stat1, st.stat2 with
      | some _, some t2 => some (vadd t2 (smul weight (vmul y y)))
      | _, _ => some (smul weight (vmul y y)) }

/-- `total_weight` (lines 135-146): 0 for a still-empty statistics dict,
otherwise the value stored under key 0; reading key 0 from a nonempty
dict that lacks it would raise `KeyError`, modelled by `none`. -/
def total_weight (st : Stats) : Option ℚ :=
  if st.stat0 = none ∧ st.stat1 = none ∧ st.stat2 = none then some 0
  else st.stat0

/-- The slice of the containing `HoeffdingTreeRegressor` that the nodes
consume: the learning-rate configuration, the declared nominal feature
indices, and the two normalization functions (external collaborators). -/
structure HoeffdingTreeRegressor where
  learning_ratio_const : Bool
  learning_ratio_perceptron : ℚ
  learning_ratio_decay : ℚ
  nominal_attributes : Option (List ℕ)
  normalize_sample : Vec → Vec
  normalize_target_value : Vec → Vec

/-- The learning-rate computation of `learn_from_instance` (lines 69-74 /
208-213), applied to the value of `self._stats[0]` at that point. -/
def perceptron_learning_ratio (rht : HoeffdingTreeRegressor) (count : ℚ) : ℚ :=
  if rht.learning_ratio_const then rht.learning_ratio_perceptron
  else rht.learning_ratio_perceptron / (1 + count * rht.learning_ratio_decay)

/-- Python `int()` truncation toward zero. -/
def py_int (q : ℚ) : ℤ := if q < 0 then ⌈q⌉ else ⌊q⌋

/-- The iteration count of `for i in range(int(weight))` (lines 83 / 222):
`range` of a negative argument is empty, hence the clamp to ℕ. -/
def py_int_steps (q : ℚ) : ℕ := (py_int q).toNat

/-- An attribute observer (external collaborator), recorded as its kind
together with the list of `(featureValue, targets, weight)` triples its
`update` method received, in order. -/
inductive Observer where
  | nominal (updates : List (ℚ × Vec × ℚ))
  | numeric (updates : List (ℚ × Vec × ℚ))
deriving DecidableEq

/-- `obs.update(x, y, weight)` (line 96): the observer records the call. -/
def observer_update (o : Observer) (x : ℚ) (y : Vec) (weight : ℚ) : Observer :=
  match o with
  | Observer.nominal us => Observer.nominal (us ++ [(x, y, weight)])
  | Observer.numeric us => Observer.numeric (us ++ [(x, y, weight)])

/-- Observer creation on `KeyError` (lines 90-94): nominal if the feature
index is declared nominal by the regressor, numeric otherwise. -/
def new_observer (rht : HoeffdingTreeRegressor) (i : ℕ) : Observer :=
  match rht.nominal_attributes with
  | some noms => if i ∈ noms then Observer.nominal [] else Observer.numeric []
  | none => Observer.numeric []

/-- Store an observer under a feature index (dict item assignment). -/
def set_observer : List (ℕ × Observer) → ℕ → Observer → List (ℕ × Observer)
  | [], i, o => [(i, o)]
  | (j, p) :: t, i, o =>
      if j = i then (i, o) :: t else (j, p) :: set_observer t i o

/-- The attribute-observer loop of the active `learn_from_instance`
(lines 86-96): for each feature index, fetch or lazily create the
observer, then feed it `(x, y, weight)`. -/
def observers_learn (rht : HoeffdingTreeRegressor) (obs0 : List (ℕ × Observer))
    (X y : Vec) (weight : ℚ) : List (ℕ × Observer) :=
  X.enum.foldl (fun os ix =>
    let o := match List.lookup ix.1 os with
      | some o => o
      | none => new_observer rht ix.1
    set_observer os ix.1 (observer_update o ix.2 y weight)) obs0

/-- The state of an `ActiveLearningNodePerceptronMultiTarget` instance:
its statistics dict, its (lazily initialized) weight matrix, its random
generator (modelled as the function from the requested shape to the drawn
`uniform(-1.0, 1.0, (rows, cols + 1))` matrix), and its observer dict. -/
structure ActiveLearningNodePerceptronMultiTarget where
  _stats : Stats
  perceptron_weight : Option Mat
  random_state : ℕ → ℕ → Mat
  _attribute_observers : List (ℕ × Observer)

/-- The state of an `InactiveLearningNodePerceptronMultiTarget` instance;
the class never creates an attribute-observer dict. -/
structure InactiveLearningNodePerceptronMultiTarget where
  _stats : Stats
  perceptron_weight : Option Mat
  random_state : ℕ → ℕ → Mat

/-- The state of an `ActiveLearningNodeAdaptiveMultiTarget` instance.
`fMAE_M` / `fMAE_P` start as the scalar `0.0` (modelled by `none`) and
become per-target vectors on the first `update_weights` call. -/
structure ActiveLearningNodeAdaptiveMultiTarget where
  _stats : Stats
  perceptron_weight : Option Mat
  random_state : ℕ → ℕ → Mat
  _attribute_observers : List (ℕ × Observer)
  fMAE_M : Option Vec
  fMAE_P : Option Vec

/-- The state of an `InactiveLearningNodeAdaptiveMultiTarget` instance. -/
structure InactiveLearningNodeAdaptiveMultiTarget where
  _stats : Stats
  perceptron_weight : Option Mat
  random_state : ℕ → ℕ → Mat
  fMAE_M : Option Vec
  fMAE_P : Option Vec

/-- The lazy weight initialization of `learn_from_instance` (lines 56-62 /
193-201): if `perceptron_weight` is `None`, draw a `(targets, features+1)`
matrix from the node's generator and L1-normalize its rows (both branches
of the source draw from `uniform` over the same interval); otherwise keep
the current matrix. -/
def init_weight_matrix (rs : ℕ → ℕ → Mat) (pw : Option Mat) (X y : Vec) : Mat :=
  match pw with
  | none => normalize_perceptron_weights (rs y.length (X.length + 1))
  | some W => W

/-- `update_weights` of the two perceptron-only classes (lines 98-121 and
225-247, textually identical): normalize the sample and target through the
regressor, take the current prediction, add
`learning_ratio * outer(normalized_target - prediction, normalized_sample)`
to the weight matrix, then renormalize the rows. Only `perceptron_weight`
is touched, so the method is embedded as a matrix transformer. -/
def perceptron_update_weights (W : Mat) (X y : Vec) (learning_ratio : ℚ)
    (rht : HoeffdingTreeRegressor) : Mat :=
  let normalized_sample := rht.normalize_sample X
  let normalized_pred := matVec W normalized_sample
  let normalized_target_value := rht.normalize_target_value y
  normalize_perceptron_weights
    (matAdd W (smulMat learning_ratio
      (outerProd (vsub normalized_target_value normalized_pred) normalized_sample)))

/-- `ActiveLearningNodePerceptronMultiTarget.learn_from_instance`
(lines 42-96): lazy weight initialization, statistics update (key 0 before
the learning-rate computation, keys 1-2 after it), `int(weight)` identical
gradient steps, then the attribute-observer loop. -/
def ActiveLearningNodePerceptronMultiTarget.learn_from_instance
    (self : ActiveLearningNodePerceptronMultiTarget) (X y : Vec) (weight : ℚ)
    (rht : HoeffdingTreeRegressor) : ActiveLearningNodePerceptronMultiTarget :=
  let W0 := init_weight_matrix self.random_state self.perceptron_weight X y
  let learning_ratio := perceptron_learning_ratio rht (new_count self._stats weight)
  let W1 := (fun W => perceptron_update_weights W X y learning_ratio rht)^[py_int_steps weight] W0
  { _stats := stats_update self._stats y weight
  , perceptron_weight := some W1
  , random_state := self.random_state
  , _attribute_observers := observers_learn rht self._attribute_observers X y weight }

/-- `InactiveLearningNodePerceptronMultiTarget.learn_from_instance`
(lines 179-223): identical to the active variant except that there is no
attribute-observer loop. -/
def InactiveLearningNodePerceptronMultiTarget.learn_from_instance
    (self : InactiveLearningNodePerceptronMultiTarget) (X y : Vec) (weight : ℚ)
    (rht : HoeffdingTreeRegressor) : InactiveLearningNodePerceptronMultiTarget :=
  let W0 := init_weight_matrix self.random_state self.perceptron_weight X y
  let learning_ratio := perceptron_learning_ratio rht (new_count self._stats weight)
  let W1 := (fun W => perceptron_update_weights W X y learning_ratio rht)^[py_int_steps weight] W0
  { _stats := stats_update self._stats y weight
  , perceptron_weight := some W1
  , random_state := self.random_state }

/-- The faded-error update `0.95 * fMAE + np.abs(err)` (lines 319-327 /
386-394); while the accumulator still holds its initial scalar `0.0`, the
numpy broadcast makes the result equal to the error vector itself. -/
def faded_error_update (old : Option Vec) (err : Vec) : Vec :=
  match old with
  | none => err
  | some v => vadd (smul (19 / 20) v) err

/-- `ActiveLearningNodeAdaptiveMultiTarget.update_weights` (lines 291-327):
the perceptron gradient step and row renormalization, followed by the two
faded-error updates; the mean predictor uses `self._stats[1] / self._stats[0]`
(both keys are present whenever `learn_from_instance` reaches this call). -/
def ActiveLearningNodeAdaptiveMultiTarget.update_weights
    (self : ActiveLearningNodeAdaptiveMultiTarget) (X y : Vec) (learning_ratio : ℚ)
    (rht : HoeffdingTreeRegressor) : ActiveLearningNodeAdaptiveMultiTarget :=
  let W := self.perceptron_weight.getD []
  let normalized_sample := rht.normalize_sample X
  let normalized_pred := matVec W normalized_sample
  let normalized_target_value := rht.normalize_target_value y
  let W1 := normalize_perceptron_weights
    (matAdd W (smulMat learning_ratio
      (outerProd (vsub normalized_target_value normalized_pred) normalized_sample)))
  let errP := (vsub normalized_target_value normalized_pred).map (fun q => |q|)
  let errM := (vsub normalized_target_value
      (rht.normalize_target_value
        (vdiv (self._stats.stat1.getD []) (self._stats.stat0.getD 0)))).map (fun q => |q|)
  { self with
      perceptron_weight := some W1
      fMAE_P := some (faded_error_update self.fMAE_P errP)
      fMAE_M := some (faded_error_update self.fMAE_M errM) }

/-- `InactiveLearningNodeAdaptiveMultiTarget.update_weights`
(lines 359-394, textually identical to the active adaptive method). -/
def InactiveLearningNodeAdaptiveMultiTarget.update_weights
    (self : InactiveLearningNodeAdaptiveMultiTarget) (X y : Vec) (learning_ratio : ℚ)
    (rht : HoeffdingTreeRegressor) : InactiveLearningNodeAdaptiveMultiTarget :=
  let W := self.perceptron_weight.getD []
  let normalized_sample := rht.normalize_sample X
  let normalized_pred := matVec W normalized_sample
  let normalized_target_value := rht.normalize_target_value y
  let W1 := normalize_perceptron_weights
    (matAdd W (smulMat learning_ratio
      (outerProd (vsub normalized_target_value normalized_pred) normalized_sample)))
  let errP := (vsub normalized_target_value normalized_pred).map (fun q => |q|)
  let errM := (vsub normalized_target_value
      (rht.normalize_target_value
        (vdiv (self._stats.stat1.getD []) (self._stats.stat0.getD 0)))).map (fun q => |q|)
  { self with
      perceptron_weight := some W1
      fMAE_P := some (faded_error_update self.fMAE_P errP)
      fMAE_M := some (faded_error_update self.fMAE_M errM) }

/-- `learn_from_instance` as inherited by
`ActiveLearningNodeAdaptiveMultiTarget` from the active perceptron class
(lines 42-96), with the dynamic dispatch of `self.update_weights` resolved
to the adaptive override: the statistics are updated before the gradient
loop, so the loop (whose steps read `self._stats`) runs on the updated
statistics and does not modify them. -/
def ActiveLearningNodeAdaptiveMultiTarget.learn_from_instance
    (self : ActiveLearningNodeAdaptiveMultiTarget) (X y : Vec) (weight : ℚ)
    (rht : HoeffdingTreeRegressor) : ActiveLearningNodeAdaptiveMultiTarget :=
  let W0 := init_weight_matrix self.random_state self.perceptron_weight X y
  let learning_ratio := perceptron_learning_ratio rht (new_count self._stats weight)
  let s1 := { self with _stats := stats_update self._stats y weight
                      , perceptron_weight := some W0 }
  let s2 := (fun t =>
    ActiveLearningNodeAdaptiveMultiTarget.update_weights t X y learning_ratio rht)^[py_int_steps weight] s1
  { s2 with _attribute_observers := observers_learn rht self._attribute_observers X y weight }

/-- `learn_from_instance` as inherited by
`InactiveLearningNodeAdaptiveMultiTarget` from the inactive perceptron
class (lines 179-223), with `self.update_weights` dispatching to the
adaptive override; no attribute-observer loop. -/
def InactiveLearningNodeAdaptiveMultiTarget.learn_from_instance
    (self : InactiveLearningNodeAdaptiveMultiTarget) (X y : Vec) (weight : ℚ)
    (rht : HoeffdingTreeRegressor) : InactiveLearningNodeAdaptiveMultiTarget :=
  let W0 := init_weight_matrix self.random_state self.perceptron_weight X y
  let learning_ratio := perceptron_learning_ratio rht (new_count self._stats weight)
  let s1 := { self with _stats := stats_update self._stats y weight
                      , perceptron_weight := some W0 }
  (fun t =>
    InactiveLearningNodeAdaptiveMultiTarget.update_weights t X y learning_ratio rht)^[py_int_steps weight] s1

/-- A node of any of the four concrete classes, for statements that range
over every node variant. -/
inductive MTNode where
  | activeP (s : ActiveLearningNodePerceptronMultiTarget)
  | inactiveP (s : InactiveLearningNodePerceptronMultiTarget)
  | activeA (s : ActiveLearningNodeAdaptiveMultiTarget)
  | inactiveA (s : InactiveLearningNodeAdaptiveMultiTarget)

/-- One `learn_from_instance` call: the regressor handle and the
`(X, y, weight)` triple. -/
structure Instr where
  rht : HoeffdingTreeRegressor
  X : Vec
  y : Vec
  w : ℚ

/-- Dispatch one `learn_from_instance` call to the node's class. -/
def mt_learn (n : MTNode) (i : Instr) : MTNode :=
  match n with
  | MTNode.activeP s => MTNode.activeP (s.learn_from_instance i.X i.y i.w i.rht)
  | MTNode.inactiveP s => MTNode.inactiveP (s.learn_from_instance i.X i.y i.w i.rht)
  | MTNode.activeA s => MTNode.activeA (s.learn_from_instance i.X i.y i.w i.rht)
  | MTNode.inactiveA s => MTNode.inactiveA (s.learn_from_instance i.X i.y i.w i.rht)

/-- Process a sequence of instances, in order. -/
def run_mt (n : MTNode) (l : List Instr) : MTNode := l.foldl mt_learn n

/-- The node's `perceptron_weight` attribute, for any variant. -/
def mt_weights : MTNode → Option Mat
  | MTNode.activeP s => s.perceptron_weight
  | MTNode.inactiveP s => s.perceptron_weight
  | MTNode.activeA s => s.perceptron_weight
  | MTNode.inactiveA s => s.perceptron_weight

/-- The node's `_stats` attribute, for any variant. -/
def mt_stats : MTNode → Stats
  | MTNode.activeP s => s._stats
  | MTNode.inactiveP s => s._stats
  | MTNode.activeA s => s._stats
  | MTNode.inactiveA s => s._stats

/-- Every row of the matrix whose entries do not all vanish is
L1-normalized. -/
def rows_good (W : Mat) : Prop :=
  ∀ r ∈ W, rowAbsSum r ≠ 0 → rowAbsSum r = 1

/-- The node's weight matrix, if initialized, has `rows_good` rows. -/
def weights_rows_ok (n : MTNode) : Prop :=
  ∀ W, mt_weights n = some W → rows_good W

/-- Exceptions the embedded code can raise. -/
inductive PyError where
  | attributeError
  | typeError
deriving DecidableEq

/-- A Python attribute value of one of these node objects. -/
inductive PyAttr where
  | aStats (v : Stats)
  | aOptMat (v : Option Mat)
  | aGen (v : ℕ → ℕ → Mat)
  | aObs (v : List (ℕ × Observer))
  | aOptVec (v : Option Vec)

def s_stats : String := "_stats"

def s_observers : String := "_attribute_observers"

def s_pweight : String := "perceptron_weight"

def s_pweights : String := "perceptron_weights"

def s_random_state : String := "random_state"

def s_fmae_m : String := "fMAE_M"

def s_fmae_p : String := "fMAE_P"

/-- Modelled from the spec: attribute lookup on a fully constructed
`ActiveLearningNodePerceptronMultiTarget` object. The attributes are those
assigned by its own `__init__`/`learn_from_instance` (`perceptron_weight`,
`random_state`) together with those contributed by the superclass
`ActiveLearningNodePerceptron.__init__` (not under src/), which per the
spec's data model owns the statistics record and the (active-only)
attribute-observer set. No code path ever assigns `perceptron_weights`. -/
def getattr_activeP (s : ActiveLearningNodePerceptronMultiTarget) (name : String) : Option PyAttr :=
  if name = s_stats then some (PyAttr.aStats s._stats)
  else if name = s_observers then some (PyAttr.aObs s._attribute_observers)
  else if name = s_pweight then some (PyAttr.aOptMat s.perceptron_weight)
  else if name = s_random_state then some (PyAttr.aGen s.random_state)
  else none

/-- Modelled from the spec: attribute lookup on a fully constructed
`InactiveLearningNodePerceptronMultiTarget` object; inactive nodes own no
attribute-observer set (spec section on active/inactive variants). -/
def getattr_inactiveP (s : InactiveLearningNodePerceptronMultiTarget) (name : String) : Option PyAttr :=
  if name = s_stats then some (PyAttr.aStats s._stats)
  else if name = s_pweight then some (PyAttr.aOptMat s.perceptron_weight)
  else if name = s_random_state then some (PyAttr.aGen s.random_state)
  else none

/-- Modelled from the spec: attribute lookup on a fully constructed
`ActiveLearningNodeAdaptiveMultiTarget` object (the active attributes plus
the two faded-error accumulators). -/
def getattr_activeA (s : ActiveLearningNodeAdaptiveMultiTarget) (name : String) : Option PyAttr :=
  if name = s_stats then some (PyAttr.aStats s._stats)
  else if name = s_observers then some (PyAttr.aObs s._attribute_observers)
  else if name = s_pweight then some (PyAttr.aOptMat s.perceptron_weight)
  else if name = s_random_state then some (PyAttr.aGen s.random_state)
  else if name = s_fmae_m then some (PyAttr.aOptVec s.fMAE_M)
  else if name = s_fmae_p then some (PyAttr.aOptVec s.fMAE_P)
  else none

/-- Modelled from the spec: attribute lookup on a fully constructed
`InactiveLearningNodeAdaptiveMultiTarget` object. -/
def getattr_inactiveA (s : InactiveLearningNodeAdaptiveMultiTarget) (name : String) : Option PyAttr :=
  if name = s_stats then some (PyAttr.aStats s._stats)
  else if name = s_pweight then some (PyAttr.aOptMat s.perceptron_weight)
  else if name = s_random_state then some (PyAttr.aGen s.random_state)
  else if name = s_fmae_m then some (PyAttr.aOptVec s.fMAE_M)
  else if name = s_fmae_p then some (PyAttr.aOptVec s.fMAE_P)
  else none

/-- Attribute lookup on a node of any of the four classes. -/
def mt_getattr : MTNode → String → Option PyAttr
  | MTNode.activeP s, name => getattr_activeP s name
  | MTNode.inactiveP s, name => getattr_inactiveP s name
  | MTNode.activeA s, name => getattr_activeA s name
  | MTNode.inactiveA s, name => getattr_inactiveA s name

/-- Coerce an attribute value into the weight-matrix slot (only the
`aOptMat` case is ever reachable in the constructors below, and in fact no
case is, since the accessed attribute name does not exist). -/
def attr_as_opt_mat : PyAttr → Option Mat
  | PyAttr.aOptMat m => m
  | _ => none

/-- `ActiveLearningNodePerceptronMultiTarget.__init__` (lines 32-40).
`super().__init__(initial_stats)` stores the statistics dict and (modelled
from the spec) an empty attribute-observer set. With a parent, the source
evaluates `deepcopy(parent_node.perceptron_weights)`: the attribute access
happens first and raises `AttributeError` when the parent defines no
`perceptron_weights`; a successful access would store an independent deep
copy (plain value semantics here). -/
def activeP_init (initial_stats : Stats) (parent_node : Option MTNode)
    (rs : ℕ → ℕ → Mat) : Except PyError ActiveLearningNodePerceptronMultiTarget :=
  match parent_node with
  | none => Except.ok
      { _stats := initial_stats, perceptron_weight := none
      , random_state := rs, _attribute_observers := [] }
  | some p =>
    match mt_getattr p s_pweights with
    | none => Except.error PyError.attributeError
    | some a => Except.ok
        { _stats := initial_stats, perceptron_weight := attr_as_opt_mat a
        , random_state := rs, _attribute_observers := [] }

/-- `InactiveLearningNodePerceptronMultiTarget.__init__` (lines 168-177).
With a parent the source evaluates `parent_node.perceptron_weights`
(without `deepcopy`): the access raises `AttributeError` when the parent
defines no such attribute; a successful access would store an aliased
reference (indistinguishable from a copy in this functional embedding). -/
def inactiveP_init (initial_stats : Stats) (parent_node : Option MTNode)
    (rs : ℕ → ℕ → Mat) : Except PyError InactiveLearningNodePerceptronMultiTarget :=
  match parent_node with
  | none => Except.ok
      { _stats := initial_stats, perceptron_weight := none, random_state := rs }
  | some p =>
    match mt_getattr p s_pweights with
    | none => Except.error PyError.attributeError
    | some a => Except.ok
        { _stats := initial_stats, perceptron_weight := attr_as_opt_mat a
        , random_state := rs }

/-- `ActiveLearningNodeAdaptiveMultiTarget.__init__` (lines 281-289):
delegates to the active perceptron constructor, then sets the two
faded-error accumulators to the scalar `0.0`. -/
def activeA_init (initial_stats : Stats) (parent_node : Option MTNode)
    (rs : ℕ → ℕ → Mat) : Except PyError ActiveLearningNodeAdaptiveMultiTarget :=
  match activeP_init initial_stats parent_node rs with
  | Except.error e => Except.error e
  | Except.ok b => Except.ok
      { _stats := b._stats, perceptron_weight := b.perceptron_weight
      , random_state := b.random_state, _attribute_observers := b._attribute_observers
      , fMAE_M := none, fMAE_P := none }

/-- `InactiveLearningNodeAdaptiveMultiTarget.__init__` (lines 349-357):
delegates to the inactive perceptron constructor, then sets the two
faded-error accumulators to the scalar `0.0`. -/
def inactiveA_init (initial_stats : Stats) (parent_node : Option MTNode)
    (rs : ℕ → ℕ → Mat) : Except PyError InactiveLearningNodeAdaptiveMultiTarget :=
  match inactiveP_init initial_stats parent_node rs with
  | Except.error e => Except.error e
  | Except.ok b => Except.ok
      { _stats := b._stats, perceptron_weight := b.perceptron_weight
      , random_state := b.random_state, fMAE_M := none, fMAE_P := none }

/-- `predict` (lines 132-133 / 258-259): `np.matmul(self.perceptron_weight, X)`.
With uninitialized weights (`None`) numpy raises (a `TypeError` in the numpy
versions the library targets) instead of returning a vector; with a matrix
it returns the matrix-vector product. -/
def node_predict (pw : Option Mat) (X : Vec) : Except PyError Vec :=
  match pw with
  | none => Except.error PyError.typeError
  | some W => Except.ok (matVec W X)

/-- The fold of the per-call statistics updates over a list of instances. -/
def stats_run (l : List Instr) (st : Stats) : Stats :=
  l.foldl (fun acc i => stats_update acc i.y i.w) st

/-- A concrete regressor used by witnesses: constant unit learning rate,
no nominal features, bias-appending sample normalization, identity target
normalization. -/
def demo_rht : HoeffdingTreeRegressor :=
  { learning_ratio_const := true, learning_ratio_perceptron := 1
  , learning_ratio_decay := 1, nominal_attributes := none
  , normalize_sample := fun v => v ++ [1]
  , normalize_target_value := fun v => v }

/-- A variant of `demo_rht` with the decaying learning-rate schedule. -/
def demo_rht_decay : HoeffdingTreeRegressor := { demo_rht with learning_ratio_const := false }

/-- A concrete deterministic generator used by witnesses. -/
def demo_gen : ℕ → ℕ → Mat := fun _ _ => [[1, 1]]

/-- A freshly constructed active perceptron node (no weights yet). -/
def demo_activeP_fresh : ActiveLearningNodePerceptronMultiTarget :=
  { _stats := emptyStats, perceptron_weight := none
  , random_state := demo_gen, _attribute_observers := [] }

/-- An active perceptron node whose weight row predicts the first feature. -/
def demo_activeP : ActiveLearningNodePerceptronMultiTarget :=
  { _stats := emptyStats, perceptron_weight := some [[1, 0]]
  , random_state := demo_gen, _attribute_observers := [] }

/-- An adaptive node with an exact predictor row and faded error `[1]`. -/
def demo_activeA : ActiveLearningNodeAdaptiveMultiTarget :=
  { _stats := emptyStats, perceptron_weight := some [[1, 0]]
  , random_state := demo_gen, _attribute_observers := []
  , fMAE_M := none, fMAE_P := some [1] }

/-- A concrete unit-weight instance used by witnesses. -/
def demo_instr : Instr := { rht := demo_rht, X := [1], y := [1], w := 1 }

/-- A concrete parent node for the constructor counterexamples. -/
def demo_parent : MTNode := MTNode.activeP demo_activeP

/-- The state of an adaptive active node after the statistics update and
lazy weight initialization of `learn_from_instance`, immediately before
the gradient loop; the loop iterates `update_weights` on this state. -/
def activeA_mid (s : ActiveLearningNodeAdaptiveMultiTarget) (X y : Vec) (w : ℚ) :
    ActiveLearningNodeAdaptiveMultiTarget :=
  { s with
      _stats := stats_update s._stats y w
      perceptron_weight := some (init_weight_matrix s.random_state s.perceptron_weight X y) }

/-- The state of an adaptive inactive node after the statistics update and
lazy weight initialization of `learn_from_instance`, immediately before
the gradient loop; the loop iterates `update_weights` on this state. -/
def inactiveA_mid (s : InactiveLearningNodeAdaptiveMultiTarget) (X y : Vec) (w : ℚ) :
    InactiveLearningNodeAdaptiveMultiTarget :=
  { s with
      _stats := stats_update s._stats y w
      perceptron_weight := some (init_weight_matrix s.random_state s.perceptron_weight X y) }

/-- An inactive adaptive node with an exact predictor row and faded
error `[1]`. -/
def demo_inactiveA : InactiveLearningNodeAdaptiveMultiTarget :=
  { _stats := emptyStats, perceptron_weight := some [[1, 0]]
  , random_state := demo_gen, fMAE_M := none, fMAE_P := some [1] }

lemma rowAbsSum_nil : rowAbsSum ([] : Vec) = 0 := rfl

lemma rowAbsSum_cons (a : ℚ) (t : Vec) : rowAbsSum (a :: t) = |a| + rowAbsSum t := by
  simp [rowAbsSum]

lemma rowAbsSum_nonneg (r : Vec) : 0 ≤ rowAbsSum r := by
  induction r with
  | nil => simp [rowAbsSum]
  | cons a t ih => rw [rowAbsSum_cons]; exact add_nonneg (abs_nonneg a) ih

lemma entries_zero_of_rowAbsSum_zero {r : Vec} (h : rowAbsSum r = 0) :
    ∀ x ∈ r, x = 0 := by
  induction r with
  | nil => simp
  | cons a t ih =>
    rw [rowAbsSum_cons] at h
    have ha : |a| = 0 := by nlinarith [abs_nonneg a, rowAbsSum_nonneg t]
    have ht : rowAbsSum t = 0 := by nlinarith [abs_nonneg a, rowAbsSum_nonneg t]
    intro x hx
    rcases List.mem_cons.mp hx with hx | hx
    · rw [hx]; exact abs_eq_zero.mp ha
    · exact ih ht x hx

lemma rowAbsSum_map_div (r : Vec) (c : ℚ) (hc : 0 < c) :
    rowAbsSum (r.map (fun x => x / c)) = rowAbsSum r / c := by
  induction r with
  | nil => simp [rowAbsSum]
  | cons a t ih =>
    rw [List.map_cons, rowAbsSum_cons, rowAbsSum_cons, ih, abs_div, abs_of_pos hc, add_div]

lemma normalize_row_sum_one {r : Vec} (h : rowAbsSum r ≠ 0) :
    rowAbsSum (normalize_row r) = 1 := by
  have hpos : 0 < rowAbsSum r := lt_of_le_of_ne (rowAbsSum_nonneg r) (Ne.symm h)
  unfold normalize_row
  rw [rowAbsSum_map_div _ _ hpos, div_self h]

lemma map_eq_self_of_entries {r : Vec} (f : ℚ → ℚ) (h : ∀ x ∈ r, f x = x) :
    r.map f = r := by
  induction r with
  | nil => rfl
  | cons a t ih =>
    rw [List.map_cons, h a (by simp), ih (fun x hx => h x (by simp [hx]))]

lemma normalize_row_of_zero {r : Vec} (h : rowAbsSum r = 0) : normalize_row r = r := by
  have hz := entries_zero_of_rowAbsSum_zero h
  unfold normalize_row
  exact map_eq_self_of_entries _ (fun x hx => by rw [hz x hx]; simp)

lemma rows_good_normalize (M : Mat) : rows_good (normalize_perceptron_weights M) := by
  intro r hr hne
  obtain ⟨q, hq, rfl⟩ := List.mem_map.mp hr
  by_cases h0 : rowAbsSum q = 0
  · rw [normalize_row_of_zero h0] at hne ⊢
    exact (hne h0).elim
  · exact normalize_row_sum_one h0

lemma rows_good_perceptron_update (W : Mat) (X y : Vec) (lr : ℚ)
    (rht : HoeffdingTreeRegressor) : rows_good (perceptron_update_weights W X y lr rht) := by
  unfold perceptron_update_weights
  exact rows_good_normalize _

lemma rows_good_perceptron_iter (W : Mat) (X y : Vec) (lr : ℚ)
    (rht : HoeffdingTreeRegressor) (n : ℕ) (h : rows_good W) :
    rows_good ((fun M => perceptron_update_weights M X y lr rht)^[n] W) := by
  induction n with
  | zero => simpa using h
  | succ k ih =>
    rw [Function.iterate_succ_apply']
    exact rows_good_perceptron_update _ _ _ _ _

lemma rows_good_init (rs : ℕ → ℕ → Mat) (pw : Option Mat) (X y : Vec)
    (h : ∀ W, pw = some W → rows_good W) :
    rows_good (init_weight_matrix rs pw X y) := by
  cases pw with
  | none => exact rows_good_normalize _
  | some W => exact h W rfl

lemma activeA_update_pw_rows_good (t : ActiveLearningNodeAdaptiveMultiTarget)
    (X y : Vec) (lr : ℚ) (rht : HoeffdingTreeRegressor) :
    ∀ W, (t.update_weights X y lr rht).perceptron_weight = some W → rows_good W := by
  intro W hW
  simp only [ActiveLearningNodeAdaptiveMultiTarget.update_weights, Option.some.injEq] at hW
  rw [← hW]
  exact rows_good_normalize _

lemma inactiveA_update_pw_rows_good (t : InactiveLearningNodeAdaptiveMultiTarget)
    (X y : Vec) (lr : ℚ) (rht : HoeffdingTreeRegressor) :
    ∀ W, (t.update_weights X y lr rht).perceptron_weight = some W → rows_good W := by
  intro W hW
  simp only [InactiveLearningNodeAdaptiveMultiTarget.update_weights, Option.some.injEq] at hW
  rw [← hW]
  exact rows_good_normalize _

lemma rows_good_activeA_iter (X y : Vec) (lr : ℚ) (rht : HoeffdingTreeRegressor)
    (n : ℕ) (t : ActiveLearningNodeAdaptiveMultiTarget)
    (h : ∀ W, t.perceptron_weight = some W → rows_good W) :
    ∀ W, ((fun u => ActiveLearningNodeAdaptiveMultiTarget.update_weights u X y lr rht)^[n] t).perceptron_weight
      = some W → rows_good W := by
  cases n with
  | zero => simpa using h
  | succ k =>
    rw [Function.iterate_succ_apply']
    exact activeA_update_pw_rows_good _ _ _ _ _

lemma rows_good_inactiveA_iter (X y : Vec) (lr : ℚ) (rht : HoeffdingTreeRegressor)
    (n : ℕ) (t : InactiveLearningNodeAdaptiveMultiTarget)
    (h : ∀ W, t.perceptron_weight = some W → rows_good W) :
    ∀ W, ((fun u => InactiveLearningNodeAdaptiveMultiTarget.update_weights u X y lr rht)^[n] t).perceptron_weight
      = some W → rows_good W := by
  cases n with
  | zero => simpa using h
  | succ k =>
    rw [Function.iterate_succ_apply']
    exact inactiveA_update_pw_rows_good _ _ _ _ _

lemma weights_ok_learn (n : MTNode) (i : Instr) (h : weights_rows_ok n) :
    weights_rows_ok (mt_learn n i) := by
  cases n with
  | activeP s =>
    intro W hW
    simp only [mt_learn, mt_weights, ActiveLearningNodePerceptronMultiTarget.learn_from_instance,
      Option.some.injEq] at hW
    rw [← hW]
    exact rows_good_perceptron_iter _ _ _ _ _ _ (rows_good_init _ _ _ _ (fun V hV => h V hV))
  | inactiveP s =>
    intro W hW
    simp only [mt_learn, mt_weights, InactiveLearningNodePerceptronMultiTarget.learn_from_instance,
      Option.some.injEq] at hW
    rw [← hW]
    exact rows_good_perceptron_iter _ _ _ _ _ _ (rows_good_init _ _ _ _ (fun V hV => h V hV))
  | activeA s =>
    intro W hW
    simp only [mt_learn, mt_weights, ActiveLearningNodeAdaptiveMultiTarget.learn_from_instance] at hW
    refine rows_good_activeA_iter _ _ _ _ _ _ ?_ W hW
    intro V hV
    simp only [Option.some.injEq] at hV
    rw [← hV]
    exact rows_good_init _ _ _ _ (fun U hU => h U hU)
  | inactiveA s =>
    intro W hW
    simp only [mt_learn, mt_weights, InactiveLearningNodeAdaptiveMultiTarget.learn_from_instance] at hW
    refine rows_good_inactiveA_iter _ _ _ _ _ _ ?_ W hW
    intro V hV
    simp only [Option.some.injEq] at hV
    rw [← hV]
    exact rows_good_init _ _ _ _ (fun U hU => h U hU)

lemma weights_ok_run (n : MTNode) (l : List Instr) (h : weights_rows_ok n) :
    weights_rows_ok (run_mt n l) := by
  induction l generalizing n with
  | nil => exact h
  | cons i t ih =>
    rw [run_mt, List.foldl_cons]
    exact ih (mt_learn n i) (weights_ok_learn n i h)

/-- C1. For every node variant and every sequence of `learn_from_instance`
calls, immediately after weight initialization and after every weight
update, every row of the perceptron weight matrix whose raw absolute-value
sum is nonzero is L1-normalized. The first conjunct pairs each raw row
with its renormalized image (this is the final operation both of the
initialization and of every `update_weights` call, for all variants); the
second propagates the invariant through arbitrary call sequences on any
node variant: whenever the weight matrix exists, its rows of nonzero
absolute sum have absolute sum exactly 1. -/
theorem C1_row_normalization_invariant :
    (∀ r : Vec, rowAbsSum r ≠ 0 → rowAbsSum (normalize_row r) = 1)
    ∧ ∀ (n : MTNode) (l : List Instr), weights_rows_ok n → weights_rows_ok (run_mt n l) :=
  ⟨fun _ h => normalize_row_sum_one h, fun n l h => weights_ok_run n l h⟩

/-- Witness for C1: a concrete row, and a concrete one-instance run on a
fresh active node whose resulting weight matrix satisfies the invariant. -/
theorem C1_witness :
    rowAbsSum (normalize_row [2, 2]) = 1
    ∧ weights_rows_ok (run_mt (MTNode.activeP demo_activeP_fresh) [demo_instr]) := by
  constructor
  · exact C1_row_normalization_invariant.1 [2, 2] (by norm_num [rowAbsSum])
  · refine C1_row_normalization_invariant.2 (MTNode.activeP demo_activeP_fresh) [demo_instr] ?_
    intro W hW
    simp only [mt_weights, demo_activeP_fresh] at hW
    exact absurd hW (by simp)

lemma activeA_update_stats (t : ActiveLearningNodeAdaptiveMultiTarget)
    (X y : Vec) (lr : ℚ) (rht : HoeffdingTreeRegressor) :
    (t.update_weights X y lr rht)._stats = t._stats := rfl

lemma inactiveA_update_stats (t : InactiveLearningNodeAdaptiveMultiTarget)
    (X y : Vec) (lr : ℚ) (rht : HoeffdingTreeRegressor) :
    (t.update_weights X y lr rht)._stats = t._stats := rfl

lemma activeA_iter_stats (X y : Vec) (lr : ℚ) (rht : HoeffdingTreeRegressor)
    (n : ℕ) (t : ActiveLearningNodeAdaptiveMultiTarget) :
    ((fun u => ActiveLearningNodeAdaptiveMultiTarget.update_weights u X y lr rht)^[n] t)._stats
      = t._stats := by
  induction n with
  | zero => rfl
  | succ k ih => rw [Function.iterate_succ_apply', activeA_update_stats, ih]

lemma inactiveA_iter_stats (X y : Vec) (lr : ℚ) (rht : HoeffdingTreeRegressor)
    (n : ℕ) (t : InactiveLearningNodeAdaptiveMultiTarget) :
    ((fun u => InactiveLearningNodeAdaptiveMultiTarget.update_weights u X y lr rht)^[n] t)._stats
      = t._stats := by
  induction n with
  | zero => rfl
  | succ k ih => rw [Function.iterate_succ_apply', inactiveA_update_stats, ih]

lemma mt_learn_stats (n : MTNode) (i : Instr) :
    mt_stats (mt_learn n i) = stats_update (mt_stats n) i.y i.w := by
  cases n with
  | activeP s => rfl
  | inactiveP s => rfl
  | activeA s =>
    simp only [mt_learn, mt_stats, ActiveLearningNodeAdaptiveMultiTarget.learn_from_instance]
    rw [activeA_iter_stats]
  | inactiveA s =>
    simp only [mt_learn, mt_stats, InactiveLearningNodeAdaptiveMultiTarget.learn_from_instance]
    rw [inactiveA_iter_stats]

lemma run_mt_stats (n : MTNode) (l : List Instr) :
    mt_stats (run_mt n l) = stats_run l (mt_stats n) := by
  induction l generalizing n with
  | nil => rfl
  | cons i t ih =>
    rw [run_mt, List.foldl_cons, stats_run, List.foldl_cons]
    rw [show List.foldl mt_learn (mt_learn n i) t = run_mt (mt_learn n i) t from rfl]
    rw [ih (mt_learn n i), mt_learn_stats]
    rfl

lemma new_count_eq (st : Stats) (w : ℚ) : new_count st w = st.stat0.getD 0 + w := by
  cases h : st.stat0 <;> simp [new_count, h]

lemma stats_run_stat0 (l : List Instr) (st : Stats) (c : ℚ) (h : st.stat0 = some c) :
    (stats_run l st).stat0 = some (c + (l.map Instr.w).sum) := by
  induction l generalizing st c with
  | nil => simpa [stats_run] using h
  | cons i t ih =>
    rw [stats_run, List.foldl_cons]
    have h1 : (stats_update st i.y i.w).stat0 = some (c + i.w) := by
      simp [stats_update, new_count, h]
    rw [show List.foldl (fun acc j => stats_update acc j.y j.w) (stats_update st i.y i.w) t
        = stats_run t (stats_update st i.y i.w) from rfl]
    rw [ih _ _ h1]
    simp only [List.map_cons, List.sum_cons, Option.some.injEq]
    ring

lemma total_weight_stats_run_empty (l : List Instr) :
    total_weight (stats_run l emptyStats) = some ((l.map Instr.w).sum) := by
  cases l with
  | nil => rfl
  | cons i t =>
    rw [stats_run, List.foldl_cons]
    have h1 : (stats_update emptyStats i.y i.w).stat0 = some i.w := by
      simp [stats_update, new_count, emptyStats]
    rw [show List.foldl (fun acc j => stats_update acc j.y j.w) (stats_update emptyStats i.y i.w) t
        = stats_run t (stats_update emptyStats i.y i.w) from rfl]
    have h2 := stats_run_stat0 t _ _ h1
    simp only [total_weight, h2]
    simp [List.map_cons, List.sum_cons]

/-- C6. For every node variant starting with empty statistics,
`total_weight` is 0 before any instance, equals the cumulative sum of the
instance weights after processing any sequence of instances, and is
monotonically non-decreasing across `learn_from_instance` calls (comparing
any run with any extension of it by further non-negatively weighted
instances). -/
theorem C6_total_weight_additivity (n : MTNode) (l l2 : List Instr)
    (h0 : mt_stats n = emptyStats)
    (hl : ∀ i ∈ l, 0 ≤ i.w) (hl2 : ∀ i ∈ l2, 0 ≤ i.w) :
    total_weight (mt_stats n) = some 0
    ∧ total_weight (mt_stats (run_mt n l)) = some ((l.map Instr.w).sum)
    ∧ ∃ a b, total_weight (mt_stats (run_mt n l)) = some a
        ∧ total_weight (mt_stats (run_mt n (l ++ l2))) = some b ∧ a ≤ b := by
  have key : ∀ l' : List Instr,
      total_weight (mt_stats (run_mt n l')) = some ((l'.map Instr.w).sum) := by
    intro l'
    rw [run_mt_stats, h0, total_weight_stats_run_empty]
  refine ⟨by rw [h0]; rfl, key l, ⟨_, _, key l, key (l ++ l2), ?_⟩⟩
  rw [List.map_append, List.sum_append]
  have hnn : 0 ≤ (l2.map Instr.w).sum := by
    apply List.sum_nonneg
    intro x hx
    obtain ⟨i, hi, rfl⟩ := List.mem_map.mp hx
    exact hl2 i hi
  linarith

/-- Witness for C6: a fresh active node, one unit-weight instance, and a
one-instance extension. -/
theorem C6_witness :
    total_weight (mt_stats (MTNode.activeP demo_activeP_fresh)) = some 0
    ∧ total_weight (mt_stats (run_mt (MTNode.activeP demo_activeP_fresh) [demo_instr]))
        = some (([demo_instr].map Instr.w).sum)
    ∧ ∃ a b,
        total_weight (mt_stats (run_mt (MTNode.activeP demo_activeP_fresh) [demo_instr])) = some a
        ∧ total_weight (mt_stats (run_mt (MTNode.activeP demo_activeP_fresh)
            ([demo_instr] ++ [demo_instr]))) = some b ∧ a ≤ b := by
  have hw : ∀ i ∈ [demo_instr], 0 ≤ i.w := by
    intro i hi
    rw [List.mem_singleton] at hi
    rw [hi]
    norm_num [demo_instr]
  exact C6_total_weight_additivity (MTNode.activeP demo_activeP_fresh) [demo_instr] [demo_instr]
    rfl hw hw

lemma py_int_steps_of_nonneg {q : ℚ} (h : 0 ≤ q) : py_int_steps q = (⌊q⌋).toNat := by
  unfold py_int_steps py_int
  rw [if_neg (not_lt.mpr h)]

lemma learn_stats_eq (s : ActiveLearningNodePerceptronMultiTarget) (X y : Vec)
    (w : ℚ) (rht : HoeffdingTreeRegressor) :
    (s.learn_from_instance X y w rht)._stats = stats_update s._stats y w := rfl

/-- C3. For every instance with non-negative weight `w`, one
`learn_from_instance` call applies exactly `floor(w)` gradient update
steps — all with the same learning rate, to the lazily initialized weight
matrix — while the accumulator updates of count (key 0), target sum
(key 1) and squared-target sum (key 2) in the same call use the full
untruncated weight `w`. -/
theorem C3_floor_weight_truncation (rht : HoeffdingTreeRegressor)
    (s : ActiveLearningNodePerceptronMultiTarget) (X y : Vec) (w : ℚ) (h : 0 ≤ w) :
    (s.learn_from_instance X y w rht).perceptron_weight
      = some ((fun W => perceptron_update_weights W X y
          (perceptron_learning_ratio rht (new_count s._stats w)) rht)^[(⌊w⌋).toNat]
          (init_weight_matrix s.random_state s.perceptron_weight X y))
    ∧ (s.learn_from_instance X y w rht)._stats.stat0 = some (s._stats.stat0.getD 0 + w)
    ∧ (s._stats.stat1 = none ∨ s._stats.stat2 = none →
        (s.learn_from_instance X y w rht)._stats.stat1 = some (smul w y)
        ∧ (s.learn_from_instance X y w rht)._stats.stat2 = some (smul w (vmul y y)))
    ∧ ∀ t1 t2, s._stats.stat1 = some t1 → s._stats.stat2 = some t2 →
        (s.learn_from_instance X y w rht)._stats.stat1 = some (vadd t1 (smul w y))
        ∧ (s.learn_from_instance X y w rht)._stats.stat2 = some (vadd t2 (smul w (vmul y y))) := by
  refine ⟨?_, ?_, ?_, ?_⟩
  · simp only [ActiveLearningNodePerceptronMultiTarget.learn_from_instance,
      py_int_steps_of_nonneg h]
  · rw [learn_stats_eq]
    simp [stats_update, new_count_eq]
  · intro hor
    rw [learn_stats_eq]
    rcases h1 : s._stats.stat1 with _ | t1 <;> rcases h2 : s._stats.stat2 with _ | t2 <;>
      simp [stats_update, h1, h2]
    rcases hor with hh | hh
    · rw [h1] at hh; exact absurd hh (by simp)
    · rw [h2] at hh; exact absurd hh (by simp)
  · intro t1 t2 h1 h2
    rw [learn_stats_eq]
    simp [stats_update, h1, h2]

/-- Witness for C3: weight `1.7` yields exactly one gradient step while
the count accumulates the full `1.7`. -/
theorem C3_witness :
    (0 : ℚ) ≤ 17 / 10
    ∧ (demo_activeP.learn_from_instance [1] [1] (17 / 10) demo_rht)._stats.stat0 = some (17 / 10)
    ∧ (demo_activeP.learn_from_instance [1] [1] (17 / 10) demo_rht).perceptron_weight
      = some ((fun W => perceptron_update_weights W [1] [1]
          (perceptron_learning_ratio demo_rht (new_count demo_activeP._stats (17 / 10))) demo_rht)^[1]
          (init_weight_matrix demo_activeP.random_state demo_activeP.perceptron_weight [1] [1])) := by
  have hnn : (0 : ℚ) ≤ 17 / 10 := by norm_num
  have h := C3_floor_weight_truncation demo_rht demo_activeP [1] [1] (17 / 10) hnn
  have hfl : (⌊(17 : ℚ) / 10⌋).toNat = 1 := by
    have : ⌊(17 : ℚ) / 10⌋ = 1 := by
      rw [Int.floor_eq_iff] <;> norm_num
    rw [this]
    rfl
  refine ⟨hnn, ?_, ?_⟩
  · have h2 := h.2.1
    simpa [demo_activeP, emptyStats] using h2
  · have h1 := h.1
    rw [hfl] at h1
    exact h1

/-- C4. In every `learn_from_instance` call the learning rate equals the
constant `learning_ratio_perceptron` when `learning_ratio_const` is set
and `learning_ratio_perceptron / (1 + count * learning_ratio_decay)`
otherwise, where `count` is the accumulator's total weight already
including the current instance's weight (the key-0 update precedes the
rate computation), and this single rate is used for all gradient steps of
the call (the iterate applies the same rate at every step). -/
theorem C4_learning_rate_schedule (rht : HoeffdingTreeRegressor)
    (s : ActiveLearningNodePerceptronMultiTarget) (X y : Vec) (w : ℚ) :
    (s.learn_from_instance X y w rht).perceptron_weight
      = some ((fun W => perceptron_update_weights W X y
          (perceptron_learning_ratio rht (s._stats.stat0.getD 0 + w)) rht)^[py_int_steps w]
          (init_weight_matrix s.random_state s.perceptron_weight X y))
    ∧ (rht.learning_ratio_const = true →
        perceptron_learning_ratio rht (s._stats.stat0.getD 0 + w)
          = rht.learning_ratio_perceptron)
    ∧ (rht.learning_ratio_const = false →
        perceptron_learning_ratio rht (s._stats.stat0.getD 0 + w)
          = rht.learning_ratio_perceptron
            / (1 + (s._stats.stat0.getD 0 + w) * rht.learning_ratio_decay)) := by
  refine ⟨?_, ?_, ?_⟩
  · simp only [ActiveLearningNodePerceptronMultiTarget.learn_from_instance, new_count_eq]
  · intro hc
    simp [perceptron_learning_ratio, hc]
  · intro hc
    simp [perceptron_learning_ratio, hc]

/-- Witness for C4: with the decaying schedule and one unit-weight
instance on a fresh node, the rate is `1 / (1 + (0 + 1) * 1)`. -/
theorem C4_witness :
    perceptron_learning_ratio demo_rht_decay (demo_activeP_fresh._stats.stat0.getD 0 + 1)
      = demo_rht_decay.learning_ratio_perceptron
        / (1 + (demo_activeP_fresh._stats.stat0.getD 0 + 1) * demo_rht_decay.learning_ratio_decay) :=
  (C4_learning_rate_schedule demo_rht_decay demo_activeP_fresh [1] [1] 1).2.2 rfl

lemma vsub_self_map_zero (l : Vec) : vsub l l = l.map (fun _ => (0 : ℚ)) := by
  induction l with
  | nil => rfl
  | cons a t ih =>
    show (a - a) :: vsub t t = 0 :: t.map (fun _ => (0 : ℚ))
    rw [sub_self, ih]

lemma vadd_zeros (r z : Vec) (hz : ∀ x ∈ z, x = 0) (hlen : r.length ≤ z.length) :
    vadd r z = r := by
  induction r generalizing z with
  | nil => rfl
  | cons a t ih =>
    cases z with
    | nil => simp at hlen
    | cons b zt =>
      show (a + b) :: vadd t zt = a :: t
      rw [hz b (by simp), add_zero,
        ih zt (fun x hx => hz x (by simp [hx])) (by simpa using hlen)]

lemma matAdd_replicate_zero (W : Mat) (z0 : Vec) (hz : ∀ x ∈ z0, x = 0)
    (hrow : ∀ r ∈ W, r.length ≤ z0.length) :
    matAdd W (List.replicate W.length z0) = W := by
  induction W with
  | nil => rfl
  | cons r t ih =>
    show vadd r z0 :: matAdd t (List.replicate t.length z0) = r :: t
    rw [vadd_zeros r z0 hz (hrow r (by simp)), ih (fun q hq => hrow q (by simp [hq]))]

lemma matVec_length (M : Mat) (x : Vec) : (matVec M x).length = M.length := by
  simp [matVec]

lemma zero_error_weight_fixed (W : Mat) (ns : Vec) (lr : ℚ)
    (hrow : ∀ r ∈ W, r.length ≤ ns.length) :
    matAdd W (smulMat lr (outerProd (vsub (matVec W ns) (matVec W ns)) ns)) = W := by
  rw [vsub_self_map_zero]
  have h2 : smulMat lr (outerProd ((matVec W ns).map (fun _ => (0 : ℚ))) ns)
      = List.replicate W.length (List.replicate ns.length (0 : ℚ)) := by
    simp only [smulMat, outerProd, matVec, List.map_map]
    have hf : (smul lr ∘ (fun a => ns.map fun b => a * b) ∘ (fun _ => (0 : ℚ)) ∘ fun r => dotProd r ns)
        = fun _ => List.replicate ns.length (0 : ℚ) := by
      funext r
      show smul lr (ns.map fun b => (0 : ℚ) * b) = _
      simp [smul, List.map_map, Function.comp]
    rw [hf]
    simp
  rw [h2]
  exact matAdd_replicate_zero W _ (fun x hx => List.eq_of_mem_replicate hx)
    (by simpa using hrow)

lemma py_int_steps_one : py_int_steps 1 = 1 := by
  rw [py_int_steps_of_nonneg (by norm_num : (0 : ℚ) ≤ 1)]
  simp

lemma py_int_steps_two : py_int_steps 2 = 2 := by
  rw [py_int_steps_of_nonneg (by norm_num : (0 : ℚ) ≤ 2)]
  rw [show ((2 : ℚ)) = ((2 : ℤ) : ℚ) by norm_num, Int.floor_intCast]
  rfl

lemma activeA_update_zero_error (rht : HoeffdingTreeRegressor) (lr : ℚ)
    (t : ActiveLearningNodeAdaptiveMultiTarget) (X y : Vec) (W : Mat) (v : Vec)
    (h1 : t.perceptron_weight = some W)
    (h2 : normalize_perceptron_weights W = W)
    (h3 : rht.normalize_target_value y = matVec W (rht.normalize_sample X))
    (h4 : t.fMAE_P = some v)
    (h5 : v.length = W.length)
    (h6 : ∀ r ∈ W, r.length ≤ (rht.normalize_sample X).length) :
    (t.update_weights X y lr rht).perceptron_weight = some W
    ∧ (t.update_weights X y lr rht).fMAE_P = some (smul (19 / 20) v) := by
  have herr : (vsub (rht.normalize_target_value y)
      (matVec W (rht.normalize_sample X))).map (fun q => |q|)
      = List.replicate (matVec W (rht.normalize_sample X)).length (0 : ℚ) := by
    rw [h3, vsub_self_map_zero, List.map_map]
    have habs : ((fun q => |q|) ∘ (fun _ : ℚ => (0 : ℚ))) = fun _ : ℚ => (0 : ℚ) := by
      funext q
      simp
    rw [habs]
    simp
  constructor
  · simp only [ActiveLearningNodeAdaptiveMultiTarget.update_weights, h1,
      Option.getD_some, Option.some.injEq]
    rw [h3, zero_error_weight_fixed W _ _ h6, h2]
  · simp only [ActiveLearningNodeAdaptiveMultiTarget.update_weights, h1,
      Option.getD_some, h4, herr, faded_error_update, Option.some.injEq]
    exact vadd_zeros _ _ (fun x hx => List.eq_of_mem_replicate hx)
      (by simp [smul, matVec_length, h5])

lemma activeA_mid_pw {s : ActiveLearningNodeAdaptiveMultiTarget} {W : Mat} (X y : Vec) (w : ℚ)
    (h1 : s.perceptron_weight = some W) : (activeA_mid s X y w).perceptron_weight = some W := by
  show some (init_weight_matrix s.random_state s.perceptron_weight X y) = some W
  rw [h1]
  rfl

lemma activeA_learn_fmaep_eq (s : ActiveLearningNodeAdaptiveMultiTarget) (X y : Vec)
    (w : ℚ) (rht : HoeffdingTreeRegressor) :
    (s.learn_from_instance X y w rht).fMAE_P
      = (((fun t => ActiveLearningNodeAdaptiveMultiTarget.update_weights t X y
          (perceptron_learning_ratio rht (new_count s._stats w)) rht)^[py_int_steps w])
          (activeA_mid s X y w)).fMAE_P := rfl

lemma activeA_learn_pw_eq (s : ActiveLearningNodeAdaptiveMultiTarget) (X y : Vec)
    (w : ℚ) (rht : HoeffdingTreeRegressor) :
    (s.learn_from_instance X y w rht).perceptron_weight
      = (((fun t => ActiveLearningNodeAdaptiveMultiTarget.update_weights t X y
          (perceptron_learning_ratio rht (new_count s._stats w)) rht)^[py_int_steps w])
          (activeA_mid s X y w)).perceptron_weight := rfl

lemma activeA_zero_error_step (rht : HoeffdingTreeRegressor)
    (s : ActiveLearningNodeAdaptiveMultiTarget) (X y : Vec) (W : Mat) (v : Vec)
    (h1 : s.perceptron_weight = some W)
    (h2 : normalize_perceptron_weights W = W)
    (h3 : rht.normalize_target_value y = matVec W (rht.normalize_sample X))
    (h4 : s.fMAE_P = some v)
    (h5 : v.length = W.length)
    (h6 : ∀ r ∈ W, r.length ≤ (rht.normalize_sample X).length) :
    (s.learn_from_instance X y 1 rht).perceptron_weight = some W
    ∧ (s.learn_from_instance X y 1 rht).fMAE_P = some (smul (19 / 20) v) := by
  have hu := activeA_update_zero_error rht
    (perceptron_learning_ratio rht (new_count s._stats 1)) (activeA_mid s X y 1) X y W v
    (activeA_mid_pw X y 1 h1) h2 h3 h4 h5 h6
  constructor
  · rw [activeA_learn_pw_eq, py_int_steps_one, Function.iterate_one]
    exact hu.1
  · rw [activeA_learn_fmaep_eq, py_int_steps_one, Function.iterate_one]
    exact hu.2

lemma inactiveA_mid_pw {s : InactiveLearningNodeAdaptiveMultiTarget} {W : Mat} (X y : Vec) (w : ℚ)
    (h1 : s.perceptron_weight = some W) : (inactiveA_mid s X y w).perceptron_weight = some W := by
  show some (init_weight_matrix s.random_state s.perceptron_weight X y) = some W
  rw [h1]
  rfl

lemma inactiveA_learn_fmaep_eq (s : InactiveLearningNodeAdaptiveMultiTarget) (X y : Vec)
    (w : ℚ) (rht : HoeffdingTreeRegressor) :
    (s.learn_from_instance X y w rht).fMAE_P
      = (((fun t => InactiveLearningNodeAdaptiveMultiTarget.update_weights t X y
          (perceptron_learning_ratio rht (new_count s._stats w)) rht)^[py_int_steps w])
          (inactiveA_mid s X y w)).fMAE_P := rfl

lemma inactiveA_learn_pw_eq (s : InactiveLearningNodeAdaptiveMultiTarget) (X y : Vec)
    (w : ℚ) (rht : HoeffdingTreeRegressor) :
    (s.learn_from_instance X y w rht).perceptron_weight
      = (((fun t => InactiveLearningNodeAdaptiveMultiTarget.update_weights t X y
          (perceptron_learning_ratio rht (new_count s._stats w)) rht)^[py_int_steps w])
          (inactiveA_mid s X y w)).perceptron_weight := rfl

lemma inactiveA_update_zero_error (rht : HoeffdingTreeRegressor) (lr : ℚ)
    (t : InactiveLearningNodeAdaptiveMultiTarget) (X y : Vec) (W : Mat) (v : Vec)
    (h1 : t.perceptron_weight = some W)
    (h2 : normalize_perceptron_weights W = W)
    (h3 : rht.normalize_target_value y = matVec W (rht.normalize_sample X))
    (h4 : t.fMAE_P = some v)
    (h5 : v.length = W.length)
    (h6 : ∀ r ∈ W, r.length ≤ (rht.normalize_sample X).length) :
    (t.update_weights X y lr rht).perceptron_weight = some W
    ∧ (t.update_weights X y lr rht).fMAE_P = some (smul (19 / 20) v) := by
  have herr : (vsub (rht.normalize_target_value y)
      (matVec W (rht.normalize_sample X))).map (fun q => |q|)
      = List.replicate (matVec W (rht.normalize_sample X)).length (0 : ℚ) := by
    rw [h3, vsub_self_map_zero, List.map_map]
    have habs : ((fun q => |q|) ∘ (fun _ : ℚ => (0 : ℚ))) = fun _ : ℚ => (0 : ℚ) := by
      funext q
      simp
    rw [habs]
    simp
  constructor
  · simp only [InactiveLearningNodeAdaptiveMultiTarget.update_weights, h1,
      Option.getD_some, Option.some.injEq]
    rw [h3, zero_error_weight_fixed W _ _ h6, h2]
  · simp only [InactiveLearningNodeAdaptiveMultiTarget.update_weights, h1,
      Option.getD_some, h4, herr, faded_error_update, Option.some.injEq]
    exact vadd_zeros _ _ (fun x hx => List.eq_of_mem_replicate hx)
      (by simp [smul, matVec_length, h5])

lemma inactiveA_zero_error_step (rht : HoeffdingTreeRegressor)
    (s : InactiveLearningNodeAdaptiveMultiTarget) (X y : Vec) (W : Mat) (v : Vec)
    (h1 : s.perceptron_weight = some W)
    (h2 : normalize_perceptron_weights W = W)
    (h3 : rht.normalize_target_value y = matVec W (rht.normalize_sample X))
    (h4 : s.fMAE_P = some v)
    (h5 : v.length = W.length)
    (h6 : ∀ r ∈ W, r.length ≤ (rht.normalize_sample X).length) :
    (s.learn_from_instance X y 1 rht).perceptron_weight = some W
    ∧ (s.learn_from_instance X y 1 rht).fMAE_P = some (smul (19 / 20) v) := by
  have hu := inactiveA_update_zero_error rht
    (perceptron_learning_ratio rht (new_count s._stats 1)) (inactiveA_mid s X y 1) X y W v
    (inactiveA_mid_pw X y 1 h1) h2 h3 h4 h5 h6
  constructor
  · rw [inactiveA_learn_pw_eq, py_int_steps_one, Function.iterate_one]
    exact hu.1
  · rw [inactiveA_learn_fmaep_eq, py_int_steps_one, Function.iterate_one]
    exact hu.2

lemma activeA_zero_error_run (W : Mat) (h2 : normalize_perceptron_weights W = W) :
    ∀ l : List Instr, (∀ i ∈ l, i.w = 1) →
      (∀ i ∈ l, i.rht.normalize_target_value i.y = matVec W (i.rht.normalize_sample i.X)) →
      (∀ i ∈ l, ∀ r ∈ W, r.length ≤ (i.rht.normalize_sample i.X).length) →
      ∀ (s : ActiveLearningNodeAdaptiveMultiTarget) (v : Vec),
        s.perceptron_weight = some W → s.fMAE_P = some v → v.length = W.length →
        (l.foldl (fun t i => t.learn_from_instance i.X i.y i.w i.rht) s).fMAE_P
          = some (v.map (fun q => (19 / 20) ^ l.length * q)) := by
  intro l
  induction l with
  | nil =>
    intro _ _ _ s v h1 h4 h5
    simpa using h4
  | cons i t ih =>
    intro hw hz hr s v h1 h4 h5
    have hw1 : i.w = 1 := hw i (List.mem_cons_self i t)
    have step := activeA_zero_error_step i.rht s i.X i.y W v h1 h2
      (hz i (List.mem_cons_self i t)) h4 h5 (hr i (List.mem_cons_self i t))
    simp only [List.foldl_cons, List.length_cons, hw1]
    have hnext := ih (fun j hj => hw j (List.mem_cons_of_mem i hj))
      (fun j hj => hz j (List.mem_cons_of_mem i hj))
      (fun j hj => hr j (List.mem_cons_of_mem i hj))
      (s.learn_from_instance i.X i.y 1 i.rht) (smul (19 / 20) v) step.1 step.2
      (by simp [smul, h5])
    rw [hnext]
    have hmap : (fun q => (19 / 20 : ℚ) ^ t.length * ((19 / 20) * q))
        = fun q => (19 / 20 : ℚ) ^ (t.length + 1) * q := by
      funext q
      ring
    rw [smul, List.map_map]
    show some ((v.map (fun q => (19 / 20 : ℚ) ^ t.length * ((19 / 20) * q)))) = _
    rw [hmap]

lemma inactiveA_zero_error_run (W : Mat) (h2 : normalize_perceptron_weights W = W) :
    ∀ l : List Instr, (∀ i ∈ l, i.w = 1) →
      (∀ i ∈ l, i.rht.normalize_target_value i.y = matVec W (i.rht.normalize_sample i.X)) →
      (∀ i ∈ l, ∀ r ∈ W, r.length ≤ (i.rht.normalize_sample i.X).length) →
      ∀ (s : InactiveLearningNodeAdaptiveMultiTarget) (v : Vec),
        s.perceptron_weight = some W → s.fMAE_P = some v → v.length = W.length →
        (l.foldl (fun t i => t.learn_from_instance i.X i.y i.w i.rht) s).fMAE_P
          = some (v.map (fun q => (19 / 20) ^ l.length * q)) := by
  intro l
  induction l with
  | nil =>
    intro _ _ _ s v h1 h4 h5
    simpa using h4
  | cons i t ih =>
    intro hw hz hr s v h1 h4 h5
    have hw1 : i.w = 1 := hw i (List.mem_cons_self i t)
    have step := inactiveA_zero_error_step i.rht s i.X i.y W v h1 h2
      (hz i (List.mem_cons_self i t)) h4 h5 (hr i (List.mem_cons_self i t))
    simp only [List.foldl_cons, List.length_cons, hw1]
    have hnext := ih (fun j hj => hw j (List.mem_cons_of_mem i hj))
      (fun j hj => hz j (List.mem_cons_of_mem i hj))
      (fun j hj => hr j (List.mem_cons_of_mem i hj))
      (s.learn_from_instance i.X i.y 1 i.rht) (smul (19 / 20) v) step.1 step.2
      (by simp [smul, h5])
    rw [hnext]
    have hmap : (fun q => (19 / 20 : ℚ) ^ t.length * ((19 / 20) * q))
        = fun q => (19 / 20 : ℚ) ^ (t.length + 1) * q := by
      funext q
      ring
    rw [smul, List.map_map]
    show some ((v.map (fun q => (19 / 20 : ℚ) ^ t.length * ((19 / 20) * q)))) = _
    rw [hmap]

/-- C5 (amended). For both adaptive node variants the per-target faded
error `fMAE_P` is updated once per gradient step — that is, `floor(weight)`
times per `learn_from_instance` call, not once per instance (the first two
conjuncts, for every state, instance and weight) — each time as
`fMAE_P = 0.95 * fMAE_P + |normalizedTarget - normalizedPrediction|`
(starting from the scalar zero); consequently, for any sequence of `k`
consecutive unit-weight instances (features, targets and regressor may
differ per instance) whose normalized prediction exactly equals the
normalized target, `fMAE_P` afterwards equals its prior value times
`0.95 ^ k` (the last two conjuncts, one per adaptive variant). -/
theorem C5_faded_error_decay :
    (∀ (s : ActiveLearningNodeAdaptiveMultiTarget) (X y : Vec) (w : ℚ)
        (rht : HoeffdingTreeRegressor),
      (s.learn_from_instance X y w rht).fMAE_P
        = (((fun t => ActiveLearningNodeAdaptiveMultiTarget.update_weights t X y
              (perceptron_learning_ratio rht (new_count s._stats w)) rht)^[py_int_steps w])
            (activeA_mid s X y w)).fMAE_P)
    ∧ (∀ (s : InactiveLearningNodeAdaptiveMultiTarget) (X y : Vec) (w : ℚ)
        (rht : HoeffdingTreeRegressor),
      (s.learn_from_instance X y w rht).fMAE_P
        = (((fun t => InactiveLearningNodeAdaptiveMultiTarget.update_weights t X y
              (perceptron_learning_ratio rht (new_count s._stats w)) rht)^[py_int_steps w])
            (inactiveA_mid s X y w)).fMAE_P)
    ∧ (∀ (W : Mat) (l : List Instr),
        normalize_perceptron_weights W = W →
        (∀ i ∈ l, i.w = 1) →
        (∀ i ∈ l, i.rht.normalize_target_value i.y = matVec W (i.rht.normalize_sample i.X)) →
        (∀ i ∈ l, ∀ r ∈ W, r.length ≤ (i.rht.normalize_sample i.X).length) →
        ∀ (s : ActiveLearningNodeAdaptiveMultiTarget) (v : Vec),
          s.perceptron_weight = some W → s.fMAE_P = some v → v.length = W.length →
          (l.foldl (fun t i => t.learn_from_instance i.X i.y i.w i.rht) s).fMAE_P
            = some (v.map (fun q => (19 / 20) ^ l.length * q)))
    ∧ ∀ (W : Mat) (l : List Instr),
        normalize_perceptron_weights W = W →
        (∀ i ∈ l, i.w = 1) →
        (∀ i ∈ l, i.rht.normalize_target_value i.y = matVec W (i.rht.normalize_sample i.X)) →
        (∀ i ∈ l, ∀ r ∈ W, r.length ≤ (i.rht.normalize_sample i.X).length) →
        ∀ (s : InactiveLearningNodeAdaptiveMultiTarget) (v : Vec),
          s.perceptron_weight = some W → s.fMAE_P = some v → v.length = W.length →
          (l.foldl (fun t i => t.learn_from_instance i.X i.y i.w i.rht) s).fMAE_P
            = some (v.map (fun q => (19 / 20) ^ l.length * q)) :=
  ⟨fun s X y w rht => activeA_learn_fmaep_eq s X y w rht,
   fun s X y w rht => inactiveA_learn_fmaep_eq s X y w rht,
   fun W l h2 hw hz hr => activeA_zero_error_run W h2 l hw hz hr,
   fun W l h2 hw hz hr => inactiveA_zero_error_run W h2 l hw hz hr⟩

/-- Counterexample to C5 as stated: an instance with weight 2 updates the
faded error twice in a single `learn_from_instance` call. Starting from
`fMAE_P = [1]` with an exact predictor (zero instantaneous error), the
once-per-instance law of the claim predicts `0.95 * 1 + 0 = 19/20`, but
the code produces `(19/20)^2 = 361/400`. -/
theorem C5_counterexample :
    (demo_activeA.learn_from_instance [1] [1] 2 demo_rht).fMAE_P = some [361 / 400]
    ∧ ((361 : ℚ) / 400) ≠ (19 / 20) * 1 + |(1 : ℚ) - 1| := by
  have h2 : normalize_perceptron_weights [[1, 0]] = [[1, 0]] := by
    norm_num [normalize_perceptron_weights, normalize_row, rowAbsSum]
  have h3 : demo_rht.normalize_target_value [1]
      = matVec [[1, 0]] (demo_rht.normalize_sample [1]) := by
    norm_num [demo_rht, matVec, dotProd, vmul]
  have h6 : ∀ r ∈ [[(1 : ℚ), 0]], r.length ≤ (demo_rht.normalize_sample [1]).length := by
    intro r hr
    rw [List.mem_singleton] at hr
    rw [hr]
    simp [demo_rht]
  constructor
  · rw [activeA_learn_fmaep_eq, py_int_steps_two, Function.iterate_succ_apply,
      Function.iterate_one]
    have e1 := activeA_update_zero_error demo_rht
      (perceptron_learning_ratio demo_rht (new_count demo_activeA._stats 2))
      (activeA_mid demo_activeA [1] [1] 2) [1] [1] [[1, 0]] [1]
      (activeA_mid_pw [1] [1] 2 rfl) h2 h3 rfl rfl h6
    have e2 := activeA_update_zero_error demo_rht
      (perceptron_learning_ratio demo_rht (new_count demo_activeA._stats 2))
      ((activeA_mid demo_activeA [1] [1] 2).update_weights [1] [1]
        (perceptron_learning_ratio demo_rht (new_count demo_activeA._stats 2)) demo_rht)
      [1] [1] [[1, 0]] (smul (19 / 20) [1])
      e1.1 h2 h3 e1.2 (by simp [smul]) h6
    rw [e2.2]
    norm_num [smul]
  · norm_num

/-- Witness for C5: two consecutive unit-weight exactly predicted
instances multiply the faded error by `(19/20)^2`, on a concrete active
adaptive node and on a concrete inactive adaptive node. -/
theorem C5_witness :
    (([demo_instr, demo_instr].foldl
        (fun t i => ActiveLearningNodeAdaptiveMultiTarget.learn_from_instance t i.X i.y i.w i.rht)
        demo_activeA).fMAE_P
      = some ([(1 : ℚ)].map (fun q => (19 / 20) ^ ([demo_instr, demo_instr] : List Instr).length * q)))
    ∧ (([demo_instr, demo_instr].foldl
        (fun t i => InactiveLearningNodeAdaptiveMultiTarget.learn_from_instance t i.X i.y i.w i.rht)
        demo_inactiveA).fMAE_P
      = some ([(1 : ℚ)].map (fun q => (19 / 20) ^ ([demo_instr, demo_instr] : List Instr).length * q))) := by
  have hmem : ∀ i ∈ ([demo_instr, demo_instr] : List Instr), i = demo_instr := by
    intro i hi
    rcases List.mem_cons.mp hi with h | h
    · exact h
    · exact List.mem_singleton.mp h
  have hnorm : normalize_perceptron_weights [[1, 0]] = [[1, 0]] := by
    norm_num [normalize_perceptron_weights, normalize_row, rowAbsSum]
  have hw : ∀ i ∈ ([demo_instr, demo_instr] : List Instr), i.w = 1 := by
    intro i hi
    rw [hmem i hi]
    rfl
  have hz : ∀ i ∈ ([demo_instr, demo_instr] : List Instr),
      i.rht.normalize_target_value i.y = matVec [[1, 0]] (i.rht.normalize_sample i.X) := by
    intro i hi
    rw [hmem i hi]
    norm_num [demo_instr, demo_rht, matVec, dotProd, vmul]
  have hr : ∀ i ∈ ([demo_instr, demo_instr] : List Instr),
      ∀ r ∈ [[(1 : ℚ), 0]], r.length ≤ (i.rht.normalize_sample i.X).length := by
    intro i hi
    rw [hmem i hi]
    intro r hrr
    rw [List.mem_singleton] at hrr
    rw [hrr]
    simp [demo_instr, demo_rht]
  exact ⟨C5_faded_error_decay.2.2.1 [[1, 0]] [demo_instr, demo_instr] hnorm hw hz hr
      demo_activeA [1] rfl rfl rfl,
    C5_faded_error_decay.2.2.2 [[1, 0]] [demo_instr, demo_instr] hnorm hw hz hr
      demo_inactiveA [1] rfl rfl rfl⟩

/-- C2 fails on the code: `normalize_perceptron_weights` performs the
division for every row unconditionally. A row whose absolute sum is
exactly zero is not left unchanged — each `0.0` entry becomes `0.0/0.0`,
a NaN — so the guard the claim (and the spec) demand is absent. The third
conjunct shows a nonzero-sum row where the division is performed as
described. -/
theorem C2_zero_row_divided_to_nan :
    normalize_row_np [0, 0] = [NpF.nan, NpF.nan]
    ∧ NpF.nan ≠ NpF.fin 0
    ∧ normalize_row_np [2, 2] = [NpF.fin (1 / 2), NpF.fin (1 / 2)] := by
  refine ⟨?_, by simp, ?_⟩
  · have h0 : rowAbsSum [(0 : ℚ), 0] = 0 := by norm_num [rowAbsSum]
    simp [normalize_row_np, h0, np_div_fin]
  · have h4 : rowAbsSum [(2 : ℚ), 2] = 4 := by norm_num [rowAbsSum]
    norm_num [normalize_row_np, h4, np_div_fin]

/-- C7 fails on the code: constructing any of these nodes from a parent of
one of these classes never copies the parent's weight matrix at all — the
constructors read `parent_node.perceptron_weights`, an attribute none of
these classes defines (the attribute is `perceptron_weight`), so the
attribute access raises before any state is copied. Shown here at a
concrete parent for both the deep-copying (active) and the aliasing
(inactive) constructor. -/
theorem C7_weight_inheritance_fails :
    inactiveP_init emptyStats (some demo_parent) demo_gen
      = Except.error PyError.attributeError
    ∧ activeP_init emptyStats (some demo_parent) demo_gen
      = Except.error PyError.attributeError :=
  ⟨rfl, rfl⟩

/-- C8. For every instance, `learn_from_instance` on an inactive
perceptron node performs exactly the statistics-accumulator and perceptron
weight updates that an active node in the same state (same statistics,
weights and generator, any observer set) performs, and the inactive node
never creates or mutates any attribute observer — it does not even have
the `_attribute_observers` attribute after the call. -/
theorem C8_inactive_matches_active (rht : HoeffdingTreeRegressor) (st : Stats)
    (pw : Option Mat) (rs : ℕ → ℕ → Mat) (obs : List (ℕ × Observer)) (X y : Vec) (w : ℚ) :
    (InactiveLearningNodePerceptronMultiTarget.learn_from_instance ⟨st, pw, rs⟩ X y w rht)._stats
      = (ActiveLearningNodePerceptronMultiTarget.learn_from_instance ⟨st, pw, rs, obs⟩ X y w rht)._stats
    ∧ (InactiveLearningNodePerceptronMultiTarget.learn_from_instance ⟨st, pw, rs⟩ X y w rht).perceptron_weight
      = (ActiveLearningNodePerceptronMultiTarget.learn_from_instance ⟨st, pw, rs, obs⟩ X y w rht).perceptron_weight
    ∧ getattr_inactiveP
        (InactiveLearningNodePerceptronMultiTarget.learn_from_instance ⟨st, pw, rs⟩ X y w rht)
        s_observers = none :=
  ⟨rfl, rfl, rfl⟩

/-- C9. `predict` called before the first `learn_from_instance` call (on
a node constructed without a parent, whose weights are uninitialized)
raises instead of silently returning a vector; once the weights exist,
`predict` returns the matrix-vector product with the normalized features. -/
theorem C9_predict_uninitialized_raises (st : Stats) (rs : ℕ → ℕ → Mat)
    (s : ActiveLearningNodePerceptronMultiTarget)
    (h : activeP_init st none rs = Except.ok s) :
    (∀ X, node_predict s.perceptron_weight X = Except.error PyError.typeError)
    ∧ ∀ (W : Mat) (X : Vec), node_predict (some W) X = Except.ok (matVec W X) := by
  have hinj : ({ _stats := st, perceptron_weight := none, random_state := rs
               , _attribute_observers := [] } : ActiveLearningNodePerceptronMultiTarget) = s := by
    have := h
    simp only [activeP_init, Except.ok.injEq] at this
    exact this
  have hpw : s.perceptron_weight = none := by
    rw [← hinj]
  exact ⟨fun X => by rw [hpw]; rfl, fun W X => rfl⟩

/-- Witness for C9: a concrete freshly constructed node. -/
theorem C9_witness :
    node_predict demo_activeP_fresh.perceptron_weight [1] = Except.error PyError.typeError :=
  (C9_predict_uninitialized_raises emptyStats demo_gen demo_activeP_fresh rfl).1 [1]

/-- C10. Constructing any of the four node classes with a parent that is
itself an instance of one of these classes always fails with an
attribute-access error before any state is copied: the constructors read
`parent_node.perceptron_weights`, while these classes only ever define
`perceptron_weight`, so weight inheritance from such a parent never
succeeds. -/
theorem C10_parent_weights_attribute_error (p : MTNode) (st : Stats) (rs : ℕ → ℕ → Mat) :
    activeP_init st (some p) rs = Except.error PyError.attributeError
    ∧ inactiveP_init st (some p) rs = Except.error PyError.attributeError
    ∧ activeA_init st (some p) rs = Except.error PyError.attributeError
    ∧ inactiveA_init st (some p) rs = Except.error PyError.attributeError := by
  have h : mt_getattr p s_pweights = none := by
    cases p <;> rfl
  refine ⟨?_, ?_, ?_, ?_⟩ <;>
    simp [activeP_init, inactiveP_init, activeA_init, inactiveA_init, h]

end MTR
